import Mathlib

/-!
Shallow embedding of the hydro compiler front end
(`src/tokenization.hpp`, `src/parser.hpp`, `src/generation.hpp`),
together with a small-step simulator for the emitted stack-machine
assembly, and theorems settling the specification claims.

Conventions of the embedding:
* every C++ function is modelled by a Lean function of the same name
  (camel-cased where needed);
* fatal `exit(EXIT_FAILURE)` calls are modelled by `Except.error`;
* dereferencing an empty `std::optional` (which throws
  `std::bad_optional_access` and terminates the process without a
  diagnostic) is modelled by a dedicated error value;
* recursion is driven by an explicit fuel parameter so that every
  definition reduces by `rfl`; fuel exhaustion is a dedicated error
  value that never occurs at the fuel bounds used below.
-/

namespace Hydro

/-- Source enum `TokenType` (`tokenization.hpp`). `let_`, `if_`, `else_`,
`elif_` keep the source spelling as closely as Lean identifiers allow. -/
inductive TokenType where
  | exit
  | int_lit
  | if_
  | else_
  | elif_
  | semi
  | open_paren
  | close_paren
  | ident
  | let_
  | eq
  | plus
  | star
  | minus
  | fslash
  | open_curly
  | close_curly
deriving DecidableEq, Repr

/-- Source `to_string(TokenType)`: the text used in parser diagnostics. -/
def typeToString : TokenType → String
  | .exit => "`exit`"
  | .int_lit => "int literal"
  | .semi => "`;`"
  | .open_paren => "`(`"
  | .close_paren => "`)`"
  | .ident => "identifier"
  | .let_ => "`let`"
  | .eq => "`=`"
  | .plus => "`+`"
  | .star => "`*`"
  | .minus => "`-`"
  | .fslash => "`/`"
  | .open_curly => "`\x7b`"
  | .close_curly => "`\x7d`"
  | .if_ => "`if`"
  | .elif_ => "`elif`"
  | .else_ => "`else`"

/-- Source `checkAndGetBinaryPrecedence`: `+`/`-` have precedence 0,
`*`/`/` have precedence 1, everything else is not a binary operator. -/
def checkAndGetBinaryPrecedence : TokenType → Option Nat
  | .plus => some 0
  | .minus => some 0
  | .star => some 1
  | .fslash => some 1
  | _ => none

/-- Source struct `Token`. -/
structure Token where
  type : TokenType
  line : Nat
  value : Option String := none
deriving DecidableEq, Repr

/-- C `isspace` on the characters this language can contain. -/
def isSpaceChar (c : Char) : Bool :=
  c == ' ' || c == '\t' || c == '\n' || c == '\x0b' || c == '\x0c' || c == '\r'

/-- Block-comment skipping loop of `Tokenizer::tokenize`: scan to the
matching `*/` (consuming it) or to end of input, counting newlines. -/
def skipBlockComment : List Char → Nat → List Char × Nat
  | [], line => ([], line)
  | '*' :: '/' :: rest, line => (rest, line)
  | '\n' :: rest, line => skipBlockComment rest (line + 1)
  | _ :: rest, line => skipBlockComment rest line

/-- Main loop of `Tokenizer::tokenize`, one outer `while` iteration per
fuel unit.  Branches appear in the source's order.  Note that the
line-comment branch increments the line counter and leaves the newline
in the input, exactly as the source does. -/
def tokenizeAux : Nat → List Char → Nat → Except String (List Token)
  | 0, _, _ => .error "out of fuel"
  | _ + 1, [], _ => .ok []
  | fuel + 1, c :: rest, line =>
    if c.isAlpha then
      let word := String.mk (c :: rest.takeWhile Char.isAlphanum)
      let rest' := rest.dropWhile Char.isAlphanum
      let tok : Token :=
        if word = "exit" then ⟨.exit, line, none⟩
        else if word = "let" then ⟨.let_, line, none⟩
        else if word = "if" then ⟨.if_, line, none⟩
        else if word = "else" then ⟨.else_, line, none⟩
        else if word = "elif" then ⟨.elif_, line, none⟩
        else ⟨.ident, line, some word⟩
      (tokenizeAux fuel rest' line).map (tok :: ·)
    else if c.isDigit then
      let num := String.mk (c :: rest.takeWhile Char.isDigit)
      let rest' := rest.dropWhile Char.isDigit
      (tokenizeAux fuel rest' line).map (Token.mk .int_lit line (some num) :: ·)
    else if c == '/' && rest.head? == some '/' then
      tokenizeAux fuel (rest.dropWhile (· != '\n')) (line + 1)
    else if c == '/' && rest.head? == some '*' then
      let s := skipBlockComment (rest.drop 1) line
      tokenizeAux fuel s.1 s.2
    else if c == '(' then
      (tokenizeAux fuel rest line).map (Token.mk .open_paren line none :: ·)
    else if c == ')' then
      (tokenizeAux fuel rest line).map (Token.mk .close_paren line none :: ·)
    else if c == ';' then
      (tokenizeAux fuel rest line).map (Token.mk .semi line none :: ·)
    else if c == '=' then
      (tokenizeAux fuel rest line).map (Token.mk .eq line none :: ·)
    else if c == '+' then
      (tokenizeAux fuel rest line).map (Token.mk .plus line none :: ·)
    else if c == '*' then
      (tokenizeAux fuel rest line).map (Token.mk .star line none :: ·)
    else if c == '-' then
      (tokenizeAux fuel rest line).map (Token.mk .minus line none :: ·)
    else if c == '/' then
      (tokenizeAux fuel rest line).map (Token.mk .fslash line none :: ·)
    else if c == '\x7b' then
      (tokenizeAux fuel rest line).map (Token.mk .open_curly line none :: ·)
    else if c == '\x7d' then
      (tokenizeAux fuel rest line).map (Token.mk .close_curly line none :: ·)
    else if c == '\n' then
      tokenizeAux fuel rest (line + 1)
    else if isSpaceChar c then
      tokenizeAux fuel rest line
    else
      .error "Invalid token encountered!"

/-- Source `Tokenizer::tokenize`, starting at line 1. -/
def tokenize (src : String) : Except String (List Token) :=
  tokenizeAux (src.length + 1) src.data 1

-- Parse-tree nodes (`parser.hpp`).  Arena pointers become boxed children.

mutual

/-- Source `NodeTerm` variant over `NodeTermIntLit`, `NodeTermIdent`,
`NodeTermParen`. -/
inductive NodeTerm where
  | intLit (intLit : Token)
  | ident (ident : Token)
  | paren (expr : NodeExpr)

/-- Source `NodeBinExpr` variant over add / multi / sub / div, each with
`lhs` and `rhs` expressions. -/
inductive NodeBinExpr where
  | add (lhs rhs : NodeExpr)
  | multi (lhs rhs : NodeExpr)
  | sub (lhs rhs : NodeExpr)
  | div (lhs rhs : NodeExpr)

/-- Source `NodeExpr` variant over `NodeTerm` and `NodeBinExpr`. -/
inductive NodeExpr where
  | term (t : NodeTerm)
  | binExpr (b : NodeBinExpr)

end

mutual

/-- Source `NodeStmt` variant over exit / let / scope / if / assign. -/
inductive NodeStmt where
  | exit (expr : NodeExpr)
  | letStmt (ident : Token) (expr : NodeExpr)
  | assign (ident : Token) (expr : NodeExpr)
  | scope (s : NodeScope)
  | if_ (expr : NodeExpr) (scope : NodeScope) (pred : Option NodeIfPred)

/-- Source `NodeScope`: a list of statements. -/
inductive NodeScope where
  | mk (stmts : List NodeStmt)

/-- Source `NodeIfPred` variant over `NodeIfPredElif` and `NodeIfPredElse`. -/
inductive NodeIfPred where
  | elif_ (expr : NodeExpr) (scope : NodeScope) (pred : Option NodeIfPred)
  | else_ (scope : NodeScope)

end

/-- Statement list of a `NodeScope`. -/
def NodeScope.stmts : NodeScope → List NodeStmt
  | .mk l => l

/-- Source `NodeProg`: the list of top-level statements. -/
structure NodeProg where
  stmts : List NodeStmt

-- Parser (`parser.hpp`).  `m_tokens`/`m_index` become an explicit state.

/-- Parser state: the (immutable) token list and the cursor `m_index`. -/
structure PState where
  tokens : List Token
  idx : Nat
deriving DecidableEq, Repr

/-- Outcomes of the fatal parser error paths.  `expected` is
`Parser::error_expected` (prints the expected construct and the line of
the most recently consumed token).  `plain` covers the `std::cerr <<
msg; exit(EXIT_FAILURE)` paths that print no line number.
`badOptionalAccess` models dereferencing an empty `std::optional`, which
throws and terminates the process with no diagnostic. -/
inductive PErr where
  | expected (what : String) (line : Nat)
  | plain (msg : String)
  | badOptionalAccess
  | outOfFuel
deriving DecidableEq, Repr

/-- Source `Parser::peek(offset)`.  The C++ computes `m_index + offset`
in `size_t`, so a negative offset from index 0 wraps far past the end
and yields an empty optional; `i < 0 → none` models exactly that. -/
def peek (st : PState) (offset : Int) : Option Token :=
  let i : Int := st.idx + offset
  if i < 0 then none else st.tokens[i.toNat]?

/-- Source `Parser::consume`: return the current token, advance the
cursor.  (Call sites always guard with `peek`, so the dummy default of
`getD` is never produced.) -/
def consume (st : PState) : Token × PState :=
  (st.tokens.getD st.idx ⟨.exit, 0, none⟩, ⟨st.tokens, st.idx + 1⟩)

/-- Source `Parser::error_expected`: reads `peek(-1).value().line`; with
no consumed token that dereference itself crashes. -/
def errorExpected (st : PState) (msg : String) : PErr :=
  match peek st (-1) with
  | some t => .expected msg t.line
  | none => .badOptionalAccess

/-- Source `Parser::try_consume`. -/
def tryConsume (st : PState) (type : TokenType) : Option (Token × PState) :=
  match peek st 0 with
  | some t => if t.type == type then some (consume st) else none
  | none => none

/-- Source `Parser::try_consume_err`. -/
def tryConsumeErr (st : PState) (type : TokenType) : Except PErr (Token × PState) :=
  match peek st 0 with
  | some t =>
    if t.type == type then .ok (consume st)
    else .error (errorExpected st (typeToString type))
  | none => .error (errorExpected st (typeToString type))

mutual

/-- Source `Parser::parse_term`. -/
def parseTerm : Nat → PState → Except PErr (Option NodeTerm × PState)
  | 0, _ => .error .outOfFuel
  | fuel + 1, st =>
    match tryConsume st .int_lit with
    | some r => .ok (some (.intLit r.1), r.2)
    | none =>
    match tryConsume st .ident with
    | some r => .ok (some (.ident r.1), r.2)
    | none =>
    match tryConsume st .open_paren with
    | some r =>
      match parseExpr fuel 0 r.2 with
      | .error e => .error e
      | .ok q =>
        match q.1 with
        | none => .error (errorExpected q.2 "expression")
        | some e =>
          match tryConsumeErr q.2 .close_paren with
          | .error er => .error er
          | .ok w => .ok (some (.paren e), w.2)
    | none => .ok (none, st)

/-- Source `Parser::parse_expr` (precedence climbing): parse a term,
then fold operator/rhs pairs in `parseExprLoop`. -/
def parseExpr : Nat → Nat → PState → Except PErr (Option NodeExpr × PState)
  | 0, _, _ => .error .outOfFuel
  | fuel + 1, minPrec, st =>
    match parseTerm fuel st with
    | .error e => .error e
    | .ok r =>
      match r.1 with
      | none => .ok (none, r.2)
      | some t => parseExprLoop fuel (.term t) minPrec r.2

/-- The `while (true)` climbing loop inside `Parser::parse_expr`:
stop unless the next token is a binary operator of precedence
`≥ minPrec`; otherwise consume it, parse the right-hand side with
minimum precedence `prec + 1`, and fold. -/
def parseExprLoop : Nat → NodeExpr → Nat → PState → Except PErr (Option NodeExpr × PState)
  | 0, _, _, _ => .error .outOfFuel
  | fuel + 1, expr, minPrec, st =>
    match peek st 0 with
    | none => .ok (some expr, st)
    | some tok =>
      match checkAndGetBinaryPrecedence tok.type with
      | none => .ok (some expr, st)
      | some prec =>
        if prec < minPrec then .ok (some expr, st)
        else
          let op := (consume st).1
          let st1 := (consume st).2
          match parseExpr fuel (prec + 1) st1 with
          | .error e => .error e
          | .ok r =>
            match r.1 with
            | none => .error (errorExpected r.2 "RHS of Binary Expression")
            | some rhs =>
              if op.type == .plus then
                parseExprLoop fuel (.binExpr (.add expr rhs)) minPrec r.2
              else if op.type == .star then
                parseExprLoop fuel (.binExpr (.multi expr rhs)) minPrec r.2
              else if op.type == .minus then
                parseExprLoop fuel (.binExpr (.sub expr rhs)) minPrec r.2
              else if op.type == .fslash then
                parseExprLoop fuel (.binExpr (.div expr rhs)) minPrec r.2
              else
                .error (.plain "assertion failed: unreachable")

/-- Source `Parser::parse_scope`. -/
def parseScope : Nat → PState → Except PErr (Option NodeScope × PState)
  | 0, _ => .error .outOfFuel
  | fuel + 1, st =>
    match tryConsume st .open_curly with
    | none => .ok (none, st)
    | some r =>
      match parseStmtList fuel r.2 with
      | .error e => .error e
      | .ok q =>
        match tryConsumeErr q.2 .close_curly with
        | .error er => .error er
        | .ok w => .ok (some (.mk q.1), w.2)

/-- The `while (auto stmt = parse_stmt())` loop of `parse_scope`. -/
def parseStmtList : Nat → PState → Except PErr (List NodeStmt × PState)
  | 0, _ => .error .outOfFuel
  | fuel + 1, st =>
    match parseStmt fuel st with
    | .error e => .error e
    | .ok r =>
      match r.1 with
      | none => .ok ([], r.2)
      | some s =>
        match parseStmtList fuel r.2 with
        | .error e => .error e
        | .ok q => .ok (s :: q.1, q.2)

/-- Source `Parser::parse_if_pred`. -/
def parseIfPred : Nat → PState → Except PErr (Option NodeIfPred × PState)
  | 0, _ => .error .outOfFuel
  | fuel + 1, st =>
    match tryConsume st .elif_ with
    | some r =>
      match tryConsumeErr r.2 .open_paren with
      | .error e => .error e
      | .ok w =>
        match parseExpr fuel 0 w.2 with
        | .error e => .error e
        | .ok q =>
          match q.1 with
          | none => .error (.plain "Exprected an expression.")
          | some e =>
            match tryConsumeErr q.2 .close_paren with
            | .error er => .error er
            | .ok w2 =>
              match parseScope fuel w2.2 with
              | .error er => .error er
              | .ok q2 =>
                match q2.1 with
                | none => .error (.plain "Exprected a scope.")
                | some sc =>
                  match parseIfPred fuel q2.2 with
                  | .error er => .error er
                  | .ok q3 => .ok (some (.elif_ e sc q3.1), q3.2)
    | none =>
    match tryConsume st .else_ with
    | some r =>
      match parseScope fuel r.2 with
      | .error er => .error er
      | .ok q =>
        match q.1 with
        | none => .error (.plain "Exprected a scope.")
        | some sc => .ok (some (.else_ sc), q.2)
    | none => .ok (none, st)

/-- Source `Parser::parse_stmt`.  The first branch mirrors the source
exactly: it reads `peek().value().type` without checking
`has_value()`, so at end of input it crashes instead of diagnosing. -/
def parseStmt : Nat → PState → Except PErr (Option NodeStmt × PState)
  | 0, _ => .error .outOfFuel
  | fuel + 1, st =>
    match peek st 0 with
    | none => .error .badOptionalAccess
    | some t0 =>
      if t0.type == .exit && (peek st 1).any (fun t => t.type == .open_paren) then
        let st2 := (consume (consume st).2).2
        match parseExpr fuel 0 st2 with
        | .error e => .error e
        | .ok r =>
          match r.1 with
          | none => .error (.plain "Invalid expression")
          | some e =>
            match tryConsumeErr r.2 .close_paren with
            | .error er => .error er
            | .ok w =>
              match tryConsumeErr w.2 .semi with
              | .error er => .error er
              | .ok w2 => .ok (some (.exit e), w2.2)
      else if t0.type == .let_ && (peek st 1).any (fun t => t.type == .ident)
          && (peek st 2).any (fun t => t.type == .eq) then
        let identTok := (consume (consume st).2).1
        let st3 := (consume (consume (consume st).2).2).2
        match parseExpr fuel 0 st3 with
        | .error e => .error e
        | .ok r =>
          match r.1 with
          | none => .error (.plain "Invalid expression")
          | some e =>
            match tryConsumeErr r.2 .semi with
            | .error er => .error er
            | .ok w => .ok (some (.letStmt identTok e), w.2)
      else if t0.type == .ident && (peek st 1).any (fun t => t.type == .eq) then
        let identTok := (consume st).1
        let st2 := (consume (consume st).2).2
        match parseExpr fuel 0 st2 with
        | .error e => .error e
        | .ok r =>
          match r.1 with
          | none => .error (.plain "Expected expression")
          | some e =>
            match tryConsumeErr r.2 .semi with
            | .error er => .error er
            | .ok w => .ok (some (.assign identTok e), w.2)
      else if t0.type == .open_curly then
        match parseScope fuel st with
        | .error e => .error e
        | .ok r =>
          match r.1 with
          | some sc => .ok (some (.scope sc), r.2)
          | none => .error (.plain "Invalid scope")
      else
        match tryConsume st .if_ with
        | some r =>
          match tryConsumeErr r.2 .open_paren with
          | .error e => .error e
          | .ok w =>
            match parseExpr fuel 0 w.2 with
            | .error e => .error e
            | .ok q =>
              match q.1 with
              | none => .error (.plain "Invalid expression")
              | some e =>
                match tryConsumeErr q.2 .close_paren with
                | .error er => .error er
                | .ok w2 =>
                  match parseScope fuel w2.2 with
                  | .error er => .error er
                  | .ok q2 =>
                    match q2.1 with
                    | none => .error (.plain "Invalid scope")
                    | some sc =>
                      match parseIfPred fuel q2.2 with
                      | .error er => .error er
                      | .ok q3 => .ok (some (.if_ e sc q3.1), q3.2)
        | none => .ok (none, st)

/-- The `while (peek().has_value())` loop of `Parser::parse_prog`. -/
def parseProgAux : Nat → PState → Except PErr (List NodeStmt × PState)
  | 0, _ => .error .outOfFuel
  | fuel + 1, st =>
    match peek st 0 with
    | none => .ok ([], st)
    | some _ =>
      match parseStmt fuel st with
      | .error e => .error e
      | .ok r =>
        match r.1 with
        | none => .error (.plain "Invalid statement")
        | some s =>
          match parseProgAux fuel r.2 with
          | .error e => .error e
          | .ok q => .ok (s :: q.1, q.2)

end

/-- Source `Parser::parse_prog`. -/
def parseProg (fuel : Nat) (tokens : List Token) : Except PErr NodeProg :=
  (parseProgAux fuel ⟨tokens, 0⟩).map (fun r => ⟨r.1⟩)

-- Code generator (`generation.hpp`).  Each emitted output line becomes
-- one constructor of `Instr`.

/-- Registers named by the generator. -/
inductive Reg where
  | rax
  | rbx
  | rdi
deriving DecidableEq, Repr

/-- Push operands: `push rax` or `push QWORD [rsp + offsetBytes]`. -/
inductive Operand where
  | reg (r : Reg)
  | memRsp (offsetBytes : Nat)
deriving DecidableEq, Repr

/-- One line of generated assembly text. -/
inductive Instr where
  | globalStart
  | labelDef (name : String)
  | comment (text : String)
  | movRaxImm (val : String)
  | movRdiImm (val : String)
  | push (op : Operand)
  | pop (r : Reg)
  | addRaxRbx
  | mulRbx
  | subRaxRbx
  | divRbx
  | testRaxRax
  | jz (label : String)
  | jmp (label : String)
  | movMemRspRax (offsetBytes : Nat)
  | addRsp (bytes : Nat)
  | syscall
deriving DecidableEq, Repr

/-- Source `Generator::Var`: name and stack height at declaration. -/
structure Var where
  name : String
  stackLoc : Nat
deriving DecidableEq, Repr

/-- Generator state: output buffer `m_output`, virtual stack height
`m_stack_size`, variable table `m_vars` (oldest declaration first, as
`std::vector::push_back` appends at the end), scope checkpoints
`m_scopes`, and the label counter `m_label_count`. -/
structure GenState where
  output : List Instr
  stackSize : Nat
  vars : List Var
  scopes : List Nat
  labelCount : Nat
deriving DecidableEq, Repr

/-- Fatal generator error paths (`std::cerr << ...; exit(EXIT_FAILURE)`). -/
inductive GenErr where
  | undeclaredIdentifier (name : String)
  | identifierAlreadyUsed (name : String)
  | outOfFuel
deriving DecidableEq, Repr

/-- Append one output line. -/
def emit (i : Instr) (st : GenState) : GenState :=
  { st with output := st.output ++ [i] }

/-- Source `Generator::push`: emit a push line, increment the height. -/
def push (op : Operand) (st : GenState) : GenState :=
  { st with output := st.output ++ [.push op], stackSize := st.stackSize + 1 }

/-- Source `Generator::pop`: emit a pop line, decrement the height. -/
def pop (r : Reg) (st : GenState) : GenState :=
  { st with output := st.output ++ [.pop r], stackSize := st.stackSize - 1 }

/-- Source `Generator::begin_scope`: push the current table size. -/
def beginScope (st : GenState) : GenState :=
  { st with scopes := st.scopes ++ [st.vars.length] }

/-- Source `Generator::end_scope`: pop the variables declared since the
last checkpoint, emitting `add rsp, 8*count` only when the count is
nonzero.  (`m_scopes.back()` is only read with a nonempty checkpoint
stack; `getD` supplies a never-used default.) -/
def endScope (st : GenState) : GenState :=
  let checkpoint := st.scopes.getLast?.getD 0
  let popCount := st.vars.length - checkpoint
  { output := if popCount ≠ 0 then st.output ++ [.addRsp (popCount * 8)] else st.output
    stackSize := st.stackSize - popCount
    vars := st.vars.take (st.vars.length - popCount)
    scopes := st.scopes.dropLast
    labelCount := st.labelCount }

/-- Source `Generator::create_label`. -/
def createLabel (st : GenState) : String × GenState :=
  ("label" ++ toString st.labelCount, { st with labelCount := st.labelCount + 1 })

/-- The `std::find_if(m_vars.cbegin(), m_vars.cend(), ...)` lookup used
for reads, reassignments and the duplicate-`let` check: a linear search
from the FIRST (oldest) binding forward. -/
def lookupVar (name : String) (vars : List Var) : Option Var :=
  vars.find? (fun v => v.name == name)

mutual

/-- Source `Generator::generate_term` (the `TermVisitor`). -/
def genTerm : Nat → NodeTerm → GenState → Except GenErr GenState
  | 0, _, _ => .error .outOfFuel
  | fuel + 1, t, st =>
    match t with
    | .intLit tok => .ok (push (.reg .rax) (emit (.movRaxImm (tok.value.getD "")) st))
    | .ident tok =>
      match lookupVar (tok.value.getD "") st.vars with
      | none => .error (.undeclaredIdentifier (tok.value.getD ""))
      | some v => .ok (push (.memRsp ((st.stackSize - v.stackLoc - 1) * 8)) st)
    | .paren e => genExpr fuel e st

/-- Source `Generator::generate_binary_expression`: right-hand side
first, then left-hand side, pop into `rax`/`rbx`, operate, push. -/
def genBinExpr : Nat → NodeBinExpr → GenState → Except GenErr GenState
  | 0, _, _ => .error .outOfFuel
  | fuel + 1, b, st =>
    match b with
    | .add lhs rhs =>
      match genExpr fuel rhs st with
      | .error e => .error e
      | .ok st1 =>
        match genExpr fuel lhs st1 with
        | .error e => .error e
        | .ok st2 => .ok (push (.reg .rax) (emit .addRaxRbx (pop .rbx (pop .rax st2))))
    | .multi lhs rhs =>
      match genExpr fuel rhs st with
      | .error e => .error e
      | .ok st1 =>
        match genExpr fuel lhs st1 with
        | .error e => .error e
        | .ok st2 => .ok (push (.reg .rax) (emit .mulRbx (pop .rbx (pop .rax st2))))
    | .sub lhs rhs =>
      match genExpr fuel rhs st with
      | .error e => .error e
      | .ok st1 =>
        match genExpr fuel lhs st1 with
        | .error e => .error e
        | .ok st2 => .ok (push (.reg .rax) (emit .subRaxRbx (pop .rbx (pop .rax st2))))
    | .div lhs rhs =>
      match genExpr fuel rhs st with
      | .error e => .error e
      | .ok st1 =>
        match genExpr fuel lhs st1 with
        | .error e => .error e
        | .ok st2 => .ok (push (.reg .rax) (emit .divRbx (pop .rbx (pop .rax st2))))

/-- Source `Generator::generate_expression`. -/
def genExpr : Nat → NodeExpr → GenState → Except GenErr GenState
  | 0, _, _ => .error .outOfFuel
  | fuel + 1, e, st =>
    match e with
    | .term t => genTerm fuel t st
    | .binExpr b => genBinExpr fuel b st

end

mutual

/-- Source `Generator::generate_statement` (the `StmtVisitor`). -/
def genStmt : Nat → NodeStmt → GenState → Except GenErr GenState
  | 0, _, _ => .error .outOfFuel
  | fuel + 1, s, st =>
    match s with
    | .exit e =>
      match genExpr fuel e (emit (.comment ";; exit") st) with
      | .error er => .error er
      | .ok st1 =>
        .ok (emit (.comment ";; /exit")
              (emit .syscall (pop .rdi (emit (.movRaxImm "60") st1))))
    | .letStmt identTok e =>
      let st0 := emit (.comment ";; let") st
      let name := identTok.value.getD ""
      match lookupVar name st0.vars with
      | some _ => .error (.identifierAlreadyUsed name)
      | none =>
        let st1 := { st0 with vars := st0.vars ++ [⟨name, st0.stackSize⟩] }
        match genExpr fuel e st1 with
        | .error er => .error er
        | .ok st2 => .ok (emit (.comment ";; /let") st2)
    | .assign identTok e =>
      let st0 := emit (.comment ";; reassign") st
      let name := identTok.value.getD ""
      match lookupVar name st0.vars with
      | none => .error (.undeclaredIdentifier name)
      | some v =>
        match genExpr fuel e st0 with
        | .error er => .error er
        | .ok st1 =>
          let st2 := pop .rax st1
          .ok (emit (.comment ";; /reassign")
                (emit (.movMemRspRax ((st2.stackSize - v.stackLoc - 1) * 8)) st2))
    | .scope sc =>
      match genScope fuel sc (emit (.comment ";; scope") st) with
      | .error er => .error er
      | .ok st1 => .ok (emit (.comment ";; /scope") st1)
    | .if_ e sc pred =>
      match genExpr fuel e (emit (.comment ";; if") st) with
      | .error er => .error er
      | .ok st1 =>
        let st2 := pop .rax st1
        let label := (createLabel st2).1
        let st3 := (createLabel st2).2
        let st4 := emit (.jz label) (emit .testRaxRax st3)
        match genScope fuel sc st4 with
        | .error er => .error er
        | .ok st5 =>
          match pred with
          | some p =>
            let endLabel := (createLabel st5).1
            let st6 := (createLabel st5).2
            let st7 := emit (.labelDef label) (emit (.jmp endLabel) st6)
            match genIfPred fuel p endLabel st7 with
            | .error er => .error er
            | .ok st8 => .ok (emit (.comment ";; /if") (emit (.labelDef endLabel) st8))
          | none => .ok (emit (.comment ";; /if") (emit (.labelDef label) st5))

/-- The statement loop of `Generator::generate_scope`. -/
def genStmts : Nat → List NodeStmt → GenState → Except GenErr GenState
  | 0, _, _ => .error .outOfFuel
  | _ + 1, [], st => .ok st
  | fuel + 1, s :: rest, st =>
    match genStmt fuel s st with
    | .error er => .error er
    | .ok st1 => genStmts fuel rest st1

/-- Source `Generator::generate_scope`: begin scope, generate the
statements, end scope. -/
def genScope : Nat → NodeScope → GenState → Except GenErr GenState
  | 0, _, _ => .error .outOfFuel
  | fuel + 1, sc, st =>
    match genStmts fuel sc.stmts (beginScope st) with
    | .error er => .error er
    | .ok st1 => .ok (endScope st1)

/-- Source `Generator::generate_if_pred` (the `PredVisitor`).  In the
`elif` case the false-branch label is emitted ONLY when a further
predicate exists, exactly as in the source. -/
def genIfPred : Nat → NodeIfPred → String → GenState → Except GenErr GenState
  | 0, _, _, _ => .error .outOfFuel
  | fuel + 1, p, endLabel, st =>
    match p with
    | .elif_ e sc pred =>
      match genExpr fuel e (emit (.comment ";; elif") st) with
      | .error er => .error er
      | .ok st1 =>
        let st2 := pop .rax st1
        let label := (createLabel st2).1
        let st3 := (createLabel st2).2
        let st4 := emit (.jz label) (emit .testRaxRax st3)
        match genScope fuel sc st4 with
        | .error er => .error er
        | .ok st5 =>
          let st6 := emit (.jmp endLabel) st5
          match pred with
          | some p2 => genIfPred fuel p2 endLabel (emit (.labelDef label) st6)
          | none => .ok st6
    | .else_ sc => genScope fuel sc (emit (.comment ";; else") st)

end

/-- Initial generator state. -/
def initGen : GenState := ⟨[], 0, [], [], 0⟩

/-- Source `Generator::generate_program`: prologue, every top-level
statement in order, then the default termination epilogue. -/
def genProg (fuel : Nat) (p : NodeProg) : Except GenErr (List Instr) :=
  match genStmts fuel p.stmts { initGen with output := [.globalStart, .labelDef "_start"] } with
  | .error er => .error er
  | .ok st => .ok (st.output ++ [.movRaxImm "60", .movRdiImm "0", .syscall])

-- Simulator for the emitted assembly: an x86/Linux stack machine with
-- the registers and instructions the generator uses.  Word arithmetic
-- is modulo 2^64; a process exits via `syscall` with `rax = 60`, the
-- status being the low byte of `rdi`.

/-- Word modulus of the 64-bit target. -/
def wordMod : Nat := 18446744073709551616

/-- Decimal text to value, as the external assembler reads immediates. -/
def strToNat (s : String) : Nat :=
  s.data.foldl (fun n c => n * 10 + (c.toNat - 48)) 0

/-- Machine state: program counter, the three registers the generator
names, the zero flag set by `test rax, rax`, and the stack (head =
top, one 64-bit word per entry). -/
structure MState where
  pc : Nat
  rax : Nat
  rbx : Nat
  rdi : Nat
  zf : Bool
  stack : List Nat
deriving DecidableEq, Repr

/-- Initial machine state at `_start`. -/
def initM : MState := ⟨0, 0, 0, 0, false, []⟩

/-- Position of the definition of label `l`, if any. -/
def findLabel (instrs : List Instr) (l : String) : Option Nat :=
  match instrs with
  | [] => none
  | i :: rest =>
    if i = .labelDef l then some 0 else (findLabel rest l).map (· + 1)

/-- Result of one simulation step. -/
inductive StepRes where
  | halted (status : Nat) (pc : Nat)
  | next (st : MState)
  | stuck
deriving DecidableEq, Repr

/-- Read a register. -/
def readReg (st : MState) : Reg → Nat
  | .rax => st.rax
  | .rbx => st.rbx
  | .rdi => st.rdi

/-- Write a register. -/
def writeReg (st : MState) (r : Reg) (v : Nat) : MState :=
  match r with
  | .rax => { st with rax := v }
  | .rbx => { st with rbx := v }
  | .rdi => { st with rdi := v }

/-- One step of the stack machine.  `push QWORD [rsp + k]` reads the
word `k/8` entries below the top; `mov [rsp + k], rax` writes it;
`add rsp, k` discards `k/8` entries. -/
def step (instrs : List Instr) (st : MState) : StepRes :=
  match instrs[st.pc]? with
  | none => .stuck
  | some i =>
    match i with
    | .globalStart => .next { st with pc := st.pc + 1 }
    | .labelDef _ => .next { st with pc := st.pc + 1 }
    | .comment _ => .next { st with pc := st.pc + 1 }
    | .movRaxImm v => .next { st with rax := strToNat v % wordMod, pc := st.pc + 1 }
    | .movRdiImm v => .next { st with rdi := strToNat v % wordMod, pc := st.pc + 1 }
    | .push op =>
      let v :=
        match op with
        | .reg r => readReg st r
        | .memRsp k => st.stack.getD (k / 8) 0
      .next { st with stack := v :: st.stack, pc := st.pc + 1 }
    | .pop r =>
      match st.stack with
      | [] => .stuck
      | v :: rest => .next { writeReg st r v with stack := rest, pc := st.pc + 1 }
    | .addRaxRbx => .next { st with rax := (st.rax + st.rbx) % wordMod, pc := st.pc + 1 }
    | .mulRbx => .next { st with rax := (st.rax * st.rbx) % wordMod, pc := st.pc + 1 }
    | .subRaxRbx =>
      .next { st with rax := (st.rax + wordMod - st.rbx) % wordMod, pc := st.pc + 1 }
    | .divRbx =>
      if st.rbx = 0 then .stuck
      else .next { st with rax := st.rax / st.rbx, pc := st.pc + 1 }
    | .testRaxRax => .next { st with zf := st.rax == 0, pc := st.pc + 1 }
    | .jz l =>
      if st.zf then
        match findLabel instrs l with
        | some t => .next { st with pc := t }
        | none => .stuck
      else .next { st with pc := st.pc + 1 }
    | .jmp l =>
      match findLabel instrs l with
      | some t => .next { st with pc := t }
      | none => .stuck
    | .movMemRspRax k => .next { st with stack := st.stack.set (k / 8) st.rax, pc := st.pc + 1 }
    | .addRsp k => .next { st with stack := st.stack.drop (k / 8), pc := st.pc + 1 }
    | .syscall =>
      if st.rax = 60 then .halted (st.rdi % 256) st.pc else .stuck

/-- Run to termination (`some (status, pc of the halting syscall)`),
bounded by fuel. -/
def run (instrs : List Instr) : Nat → MState → Option (Nat × Nat)
  | 0, _ => none
  | fuel + 1, st =>
    match step instrs st with
    | .halted status pc => some (status, pc)
    | .next st1 => run instrs fuel st1
    | .stuck => none

-- End-to-end pipeline on concrete sources.

/-- Compilation error, tagged by stage. -/
inductive CErr where
  | lex (msg : String)
  | parse (e : PErr)
  | gen (e : GenErr)
deriving DecidableEq, Repr

/-- Fuel used for the parser and generator on concrete programs. -/
def defFuel : Nat := 60

/-- The full front end: tokenize, parse, generate. -/
def compile (src : String) : Except CErr (List Instr) :=
  match tokenize src with
  | .error m => .error (.lex m)
  | .ok toks =>
    match parseProg defFuel toks with
    | .error e => .error (.parse e)
    | .ok prog =>
      match genProg defFuel prog with
      | .error e => .error (.gen e)
      | .ok instrs => .ok instrs

-- Analysis helpers.

/-- Number of `push` lines in a run of output. -/
def countPush (l : List Instr) : Nat :=
  l.countP (fun i => match i with | .push _ => true | _ => false)

/-- Number of `pop` lines in a run of output. -/
def countPop (l : List Instr) : Nat :=
  l.countP (fun i => match i with | .pop _ => true | _ => false)

/-- The variable table holds pairwise distinct names. -/
abbrev namesNodup (vars : List Var) : Prop :=
  (vars.map Var.name).Nodup

/-- Modelled from the spec's words (for comparison with `lookupVar`):
a linear search from the MOST RECENTLY declared binding backward,
using the first matching name. -/
def lookupNearest (name : String) (vars : List Var) : Option Var :=
  vars.reverse.find? (fun v => v.name == name)

/-- Number of variables a single statement adds to the table (1 for
`let`, 0 otherwise). -/
def letWeight : NodeStmt → Nat
  | .letStmt _ _ => 1
  | _ => 0

/-- State change common to generating any expression: the table, the
checkpoint stack and the label counter are untouched, the virtual stack
height rises by exactly one, and the emitted lines have one more `push`
than `pop` and no `add rsp`. -/
def ExprFrame (st st' : GenState) : Prop :=
  st'.vars = st.vars ∧ st'.scopes = st.scopes ∧ st'.labelCount = st.labelCount ∧
  st'.stackSize = st.stackSize + 1 ∧
  ∃ d, st'.output = st.output ++ d ∧ countPush d = countPop d + 1 ∧
    ∀ n, Instr.addRsp n ∉ d

/-- Composition step shared by the four binary-operator cases of
`genBinExpr`: two expression generations followed by pop/pop/operate/push. -/
theorem exprFrame_bin {st st1 st2 : GenState} (i : Instr)
    (hi : countPush [i] = 0) (hio : countPop [i] = 0)
    (hia : ∀ n, i ≠ .addRsp n)
    (h1 : ExprFrame st st1) (h2 : ExprFrame st1 st2) :
    ExprFrame st (push (.reg .rax) (emit i (pop .rbx (pop .rax st2)))) := by
  obtain ⟨hv1, hs1, hl1, hz1, d1, hd1, hc1, ha1⟩ := h1
  obtain ⟨hv2, hs2, hl2, hz2, d2, hd2, hc2, ha2⟩ := h2
  refine ⟨by simp [push, emit, pop, hv2, hv1], by simp [push, emit, pop, hs2, hs1],
    by simp [push, emit, pop, hl2, hl1], by simp [push, emit, pop, hz2, hz1],
    d1 ++ d2 ++ [.pop .rax, .pop .rbx, i, .push (.reg .rax)], ?_, ?_, ?_⟩
  · simp [push, emit, pop, hd2, hd1]
  · simp only [countPush, countPop, List.countP_append] at *
    simp only [List.countP_cons, List.countP_nil] at *
    simp_all
    omega
  · intro n hn
    simp only [List.mem_append, List.mem_cons, List.not_mem_nil] at hn
    rcases hn with (h | h) | h
    · exact ha1 n h
    · exact ha2 n h
    · rcases h with h | h | h | h | h
      · exact absurd h (by simp)
      · exact absurd h (by simp)
      · exact hia n h.symm
      · exact absurd h (by simp)
      · exact h.elim

/-- Frame property of `generate_term` / `generate_binary_expression` /
`generate_expression`, by induction on the fuel. -/
theorem exprFrameAux : ∀ fuel,
    (∀ t st st', genTerm fuel t st = .ok st' → ExprFrame st st') ∧
    (∀ b st st', genBinExpr fuel b st = .ok st' → ExprFrame st st') ∧
    (∀ e st st', genExpr fuel e st = .ok st' → ExprFrame st st') := by
  intro fuel
  induction fuel with
  | zero =>
    refine ⟨?_, ?_, ?_⟩ <;> intro x st st' h <;> simp [genTerm, genBinExpr, genExpr] at h
  | succ fuel ih =>
    obtain ⟨iht, ihb, ihe⟩ := ih
    refine ⟨?_, ?_, ?_⟩
    · intro t st st' h
      match t with
      | .intLit tok =>
        simp only [genTerm] at h
        cases h
        exact ⟨by simp [push, emit], by simp [push, emit], by simp [push, emit],
          by simp [push, emit], [.movRaxImm (tok.value.getD ""), .push (.reg .rax)],
          by simp [push, emit], by simp [countPush, countPop, List.countP_cons], by simp⟩
      | .ident tok =>
        simp only [genTerm] at h
        split at h
        · exact absurd h (by simp)
        · rename_i v hl
          cases h
          exact ⟨by simp [push], by simp [push], by simp [push], by simp [push],
            [.push (.memRsp ((st.stackSize - v.stackLoc - 1) * 8))],
            by simp [push], by simp [countPush, countPop, List.countP_cons], by simp⟩
      | .paren e =>
        simp only [genTerm] at h
        exact ihe e st st' h
    · intro b st st' h
      match b with
      | .add lhs rhs =>
        simp only [genBinExpr] at h
        split at h
        · exact absurd h (by simp)
        · rename_i st1 h1
          split at h
          · exact absurd h (by simp)
          · rename_i st2 h2
            cases h
            exact exprFrame_bin .addRaxRbx (by simp [countPush]) (by simp [countPop])
              (by simp) (ihe rhs st st1 h1) (ihe lhs st1 st2 h2)
      | .multi lhs rhs =>
        simp only [genBinExpr] at h
        split at h
        · exact absurd h (by simp)
        · rename_i st1 h1
          split at h
          · exact absurd h (by simp)
          · rename_i st2 h2
            cases h
            exact exprFrame_bin .mulRbx (by simp [countPush]) (by simp [countPop])
              (by simp) (ihe rhs st st1 h1) (ihe lhs st1 st2 h2)
      | .sub lhs rhs =>
        simp only [genBinExpr] at h
        split at h
        · exact absurd h (by simp)
        · rename_i st1 h1
          split at h
          · exact absurd h (by simp)
          · rename_i st2 h2
            cases h
            exact exprFrame_bin .subRaxRbx (by simp [countPush]) (by simp [countPop])
              (by simp) (ihe rhs st st1 h1) (ihe lhs st1 st2 h2)
      | .div lhs rhs =>
        simp only [genBinExpr] at h
        split at h
        · exact absurd h (by simp)
        · rename_i st1 h1
          split at h
          · exact absurd h (by simp)
          · rename_i st2 h2
            cases h
            exact exprFrame_bin .divRbx (by simp [countPush]) (by simp [countPop])
              (by simp) (ihe rhs st st1 h1) (ihe lhs st1 st2 h2)
    · intro e st st' h
      match e with
      | .term t => simp only [genExpr] at h; exact iht t st st' h
      | .binExpr b => simp only [genExpr] at h; exact ihb b st st' h

/-- Frame property of `generate_expression` alone. -/
theorem genExpr_frame {fuel : Nat} {e : NodeExpr} {st st' : GenState}
    (h : genExpr fuel e st = .ok st') : ExprFrame st st' :=
  (exprFrameAux fuel).2.2 e st st' h

/-- The output buffer only grows, by some suffix `d`. -/
def OutExt (st st' : GenState) : Prop :=
  ∃ d, st'.output = st.output ++ d

theorem outExt_trans {a b c : GenState} (h1 : OutExt a b) (h2 : OutExt b c) : OutExt a c := by
  obtain ⟨d1, e1⟩ := h1
  obtain ⟨d2, e2⟩ := h2
  exact ⟨d1 ++ d2, by rw [e2, e1, List.append_assoc]⟩

theorem outExt_emit (i : Instr) (st : GenState) : OutExt st (emit i st) := ⟨[i], rfl⟩

theorem outExt_push (op : Operand) (st : GenState) : OutExt st (push op st) := ⟨[.push op], rfl⟩

theorem outExt_pop (r : Reg) (st : GenState) : OutExt st (pop r st) := ⟨[.pop r], rfl⟩

theorem outExt_createLabel (st : GenState) : OutExt st (createLabel st).2 := ⟨[], by simp [createLabel]⟩

theorem outExt_endScope (st : GenState) : OutExt st (endScope st) := by
  unfold OutExt endScope
  by_cases hc : st.vars.length - st.scopes.getLast?.getD 0 ≠ 0
  · exact ⟨[.addRsp ((st.vars.length - st.scopes.getLast?.getD 0) * 8)], by simp [hc]⟩
  · exact ⟨[], by simp [hc]⟩

theorem exprFrame_out {st st' : GenState} (h : ExprFrame st st') : OutExt st st' := by
  obtain ⟨-, -, -, -, d, hd, -, -⟩ := h
  exact ⟨d, hd⟩

/-- A `find?` miss means the name is bound nowhere in the table. -/
theorem lookupVar_none_not_mem {name : String} {vars : List Var}
    (h : lookupVar name vars = none) : name ∉ vars.map Var.name := by
  intro hm
  rw [List.mem_map] at hm
  obtain ⟨v, hv, he⟩ := hm
  rw [lookupVar, List.find?_eq_none] at h
  exact h v hv (by simp [he])

/-- Appending a fresh name preserves distinctness of the table. -/
theorem namesNodup_append {vars : List Var} {v : Var}
    (hnd : namesNodup vars) (h : lookupVar v.name vars = none) :
    namesNodup (vars ++ [v]) := by
  have hm := lookupVar_none_not_mem h
  rw [namesNodup, List.map_append, List.nodup_append]
  refine ⟨hnd, List.nodup_singleton _, ?_⟩
  intro x hx hx2
  simp only [List.map_cons, List.map_nil, List.mem_cons, List.not_mem_nil, or_false] at hx2
  subst hx2
  exact hm hx

/-- State change of generating one statement: the table gains `new`
bindings at the end (one for a `let`, none otherwise), the checkpoint
stack is untouched, the stack height rises by the number of new
bindings, distinct names stay distinct, and output only grows. -/
def StmtFrame (s : NodeStmt) (st st' : GenState) : Prop :=
  ∃ new, st'.vars = st.vars ++ new ∧ st'.scopes = st.scopes ∧
    st'.stackSize = st.stackSize + new.length ∧ new.length = letWeight s ∧
    (namesNodup st.vars → namesNodup st'.vars) ∧ OutExt st st'

/-- State change of generating a statement list. -/
def StmtsFrame (st st' : GenState) : Prop :=
  ∃ new, st'.vars = st.vars ++ new ∧ st'.scopes = st.scopes ∧
    st'.stackSize = st.stackSize + new.length ∧
    (namesNodup st.vars → namesNodup st'.vars) ∧ OutExt st st'

/-- State change of generating a whole scope (or an if-predicate):
table, checkpoint stack and stack height come back exactly to their
values at entry. -/
def ScopeFrame (st st' : GenState) : Prop :=
  st'.vars = st.vars ∧ st'.scopes = st.scopes ∧ st'.stackSize = st.stackSize ∧
  OutExt st st'

/-- Frame property of `generate_statement` / the statement loop /
`generate_scope` / `generate_if_pred`, by induction on the fuel. -/
theorem stmtFrameAux : ∀ fuel,
    (∀ s st st', genStmt fuel s st = .ok st' → StmtFrame s st st') ∧
    (∀ l st st', genStmts fuel l st = .ok st' → StmtsFrame st st') ∧
    (∀ sc st st', genScope fuel sc st = .ok st' → ScopeFrame st st') ∧
    (∀ p lbl st st', genIfPred fuel p lbl st = .ok st' → ScopeFrame st st') := by
  intro fuel
  induction fuel with
  | zero =>
    refine ⟨?_, ?_, ?_, ?_⟩ <;> intro a b c
    · intro h; simp [genStmt] at h
    · intro h; simp [genStmts] at h
    · intro h; simp [genScope] at h
    · intro d h; simp [genIfPred] at h
  | succ fuel ih =>
    obtain ⟨ihs, ihl, ihsc, ihp⟩ := ih
    refine ⟨?_, ?_, ?_, ?_⟩
    · intro s st st' h
      match s with
      | .exit e =>
        simp only [genStmt] at h
        split at h
        · exact absurd h (by simp)
        · rename_i st1 h1
          cases h
          obtain ⟨hv, hs, hl, hz, -, -, -⟩ := genExpr_frame h1
          simp only [emit] at hv hs hz
          refine ⟨[], by simp [emit, pop, hv], by simp [emit, pop, hs],
            by simp [emit, pop]; omega, rfl, by simp [emit, pop, hv], ?_⟩
          exact outExt_trans (outExt_emit _ _)
            (outExt_trans (exprFrame_out (genExpr_frame h1))
              (outExt_trans (outExt_emit _ _) (outExt_trans (outExt_pop _ _)
                (outExt_trans (outExt_emit _ _) (outExt_emit _ _)))))
      | .letStmt identTok e =>
        simp only [genStmt] at h
        split at h
        · exact absurd h (by simp)
        · rename_i hl0
          split at h
          · exact absurd h (by simp)
          · rename_i st2 h2
            cases h
            obtain ⟨hv, hs, hl, hz, -, -, -⟩ := genExpr_frame h2
            simp only [emit] at hv hs hz hl0
            refine ⟨[⟨identTok.value.getD "", st.stackSize⟩], by simp [emit, hv],
              by simp [emit, hs], by simp [emit]; omega, rfl, ?_, ?_⟩
            · intro hnd
              have : namesNodup (st.vars ++ [⟨identTok.value.getD "", st.stackSize⟩]) :=
                namesNodup_append hnd (by simpa using hl0)
              simpa [namesNodup, emit, hv] using this
            · obtain ⟨-, -, -, -, d, hd, -, -⟩ := genExpr_frame h2
              refine ⟨[.comment ";; let"] ++ (d ++ [.comment ";; /let"]), ?_⟩
              simp only [emit] at hd ⊢
              rw [hd]
              simp
      | .assign identTok e =>
        simp only [genStmt] at h
        split at h
        · exact absurd h (by simp)
        · rename_i v hl0
          split at h
          · exact absurd h (by simp)
          · rename_i st1 h1
            cases h
            obtain ⟨hv, hs, hl, hz, -, -, -⟩ := genExpr_frame h1
            simp only [emit] at hv hs hz
            refine ⟨[], by simp [emit, pop, hv], by simp [emit, pop, hs],
              by simp [emit, pop]; omega, rfl, by simp [emit, pop, hv], ?_⟩
            exact outExt_trans (outExt_emit _ _)
              (outExt_trans (exprFrame_out (genExpr_frame h1))
                (outExt_trans (outExt_pop _ _) (outExt_trans (outExt_emit _ _) (outExt_emit _ _))))
      | .scope sc =>
        simp only [genStmt] at h
        split at h
        · exact absurd h (by simp)
        · rename_i st1 h1
          cases h
          obtain ⟨hv, hs, hz, ho⟩ := ihsc sc _ st1 h1
          simp only [emit] at hv hs hz
          refine ⟨[], by simp [emit, hv], by simp [emit, hs], by simp [emit]; omega,
            rfl, by simp [emit, hv], ?_⟩
          exact outExt_trans (outExt_emit _ _) (outExt_trans ho (outExt_emit _ _))
      | .if_ e sc pred =>
        simp only [genStmt] at h
        split at h
        · exact absurd h (by simp)
        · rename_i st1 h1
          obtain ⟨hv1, hs1, hl1, hz1, -, -, -⟩ := genExpr_frame h1
          simp only [emit] at hv1 hs1 hz1
          split at h
          · exact absurd h (by simp)
          · rename_i st5 h5
            obtain ⟨hv5, hs5, hz5, ho5⟩ := ihsc sc _ st5 h5
            simp only [emit, pop, createLabel] at hv5 hs5 hz5
            match pred with
            | some p =>
              simp only at h
              split at h
              · exact absurd h (by simp)
              · rename_i st8 h8
                cases h
                obtain ⟨hv8, hs8, hz8, ho8⟩ := ihp p _ _ st8 h8
                simp only [emit, createLabel] at hv8 hs8 hz8
                refine ⟨[], by simp [emit, pop, createLabel, hv8, hv5, hv1],
                  by simp [emit, pop, createLabel, hs8, hs5, hs1],
                  by simp [emit, pop, createLabel, hz8, hz5]; omega, rfl,
                  by simp [emit, pop, createLabel, hv8, hv5, hv1], ?_⟩
                exact outExt_trans (outExt_emit _ _)
                  (outExt_trans (exprFrame_out (genExpr_frame h1))
                    (outExt_trans (outExt_pop _ _)
                      (outExt_trans (outExt_createLabel _)
                        (outExt_trans (outExt_emit _ _)
                          (outExt_trans (outExt_emit _ _)
                            (outExt_trans ho5
                              (outExt_trans (outExt_createLabel _)
                                (outExt_trans (outExt_emit _ _)
                                  (outExt_trans (outExt_emit _ _)
                                    (outExt_trans ho8
                                      (outExt_trans (outExt_emit _ _) (outExt_emit _ _))))))))))))
            | none =>
              simp only at h
              cases h
              refine ⟨[], by simp [emit, pop, createLabel, hv5, hv1],
                by simp [emit, pop, createLabel, hs5, hs1],
                by simp [emit, pop, createLabel, hz5]; omega, rfl,
                by simp [emit, pop, createLabel, hv5, hv1], ?_⟩
              exact outExt_trans (outExt_emit _ _)
                (outExt_trans (exprFrame_out (genExpr_frame h1))
                  (outExt_trans (outExt_pop _ _)
                    (outExt_trans (outExt_createLabel _)
                      (outExt_trans (outExt_emit _ _)
                        (outExt_trans (outExt_emit _ _)
                          (outExt_trans ho5
                            (outExt_trans (outExt_emit _ _) (outExt_emit _ _))))))))
    · intro l st st' h
      match l with
      | [] =>
        simp only [genStmts] at h
        cases h
        exact ⟨[], by simp, rfl, by simp, fun hx => hx, ⟨[], by simp⟩⟩
      | s :: rest =>
        simp only [genStmts] at h
        split at h
        · exact absurd h (by simp)
        · rename_i st1 h1
          obtain ⟨new1, hv1, hs1, hz1, -, hn1, ho1⟩ := ihs s st st1 h1
          obtain ⟨new2, hv2, hs2, hz2, hn2, ho2⟩ := ihl rest st1 st' h
          refine ⟨new1 ++ new2, by rw [hv2, hv1, List.append_assoc], by rw [hs2, hs1],
            by rw [hz2, hz1]; simp; omega, fun hx => hn2 (hn1 hx), outExt_trans ho1 ho2⟩
    · intro sc st st' h
      simp only [genScope] at h
      split at h
      · exact absurd h (by simp)
      · rename_i st1 h1
        cases h
        obtain ⟨new, hv, hs, hz, -, ho⟩ := ihl sc.stmts _ st1 h1
        simp only [beginScope] at hv hs hz
        have hcp : st1.scopes.getLast?.getD 0 = st.vars.length := by
          rw [hs, List.getLast?_concat]; rfl
        have hpc : st1.vars.length - st1.scopes.getLast?.getD 0 = new.length := by
          rw [hcp, hv]; simp
        refine ⟨?_, ?_, ?_, ?_⟩
        · show (endScope st1).vars = st.vars
          simp only [endScope]
          rw [hpc, hv]
          have : (st.vars ++ new).length - new.length = st.vars.length := by simp
          rw [this]
          exact List.take_left st.vars new
        · show (endScope st1).scopes = st.scopes
          simp only [endScope]
          rw [hs]
          exact List.dropLast_concat
        · show (endScope st1).stackSize = st.stackSize
          simp only [endScope]
          rw [hpc, hz]
          omega
        · exact outExt_trans (⟨[], by simp [beginScope]⟩ : OutExt st (beginScope st))
            (outExt_trans ho (outExt_endScope st1))
    · intro p lbl st st' h
      match p with
      | .elif_ e sc pred =>
        simp only [genIfPred] at h
        split at h
        · exact absurd h (by simp)
        · rename_i st1 h1
          obtain ⟨hv1, hs1, hl1, hz1, -, -, -⟩ := genExpr_frame h1
          simp only [emit] at hv1 hs1 hz1
          split at h
          · exact absurd h (by simp)
          · rename_i st5 h5
            obtain ⟨hv5, hs5, hz5, ho5⟩ := ihsc sc _ st5 h5
            simp only [emit, pop, createLabel] at hv5 hs5 hz5
            match pred with
            | some p2 =>
              simp only at h
              obtain ⟨hv8, hs8, hz8, ho8⟩ := ihp p2 lbl _ st' h
              simp only [emit] at hv8 hs8 hz8
              refine ⟨by simp [emit, pop, createLabel, hv8, hv5, hv1],
                by simp [emit, pop, createLabel, hs8, hs5, hs1],
                by rw [hz8]; simp [emit, pop, createLabel, hz5]; omega, ?_⟩
              exact outExt_trans (outExt_emit _ _)
                (outExt_trans (exprFrame_out (genExpr_frame h1))
                  (outExt_trans (outExt_pop _ _)
                    (outExt_trans (outExt_createLabel _)
                      (outExt_trans (outExt_emit _ _)
                        (outExt_trans (outExt_emit _ _)
                          (outExt_trans ho5
                            (outExt_trans (outExt_emit _ _)
                              (outExt_trans (outExt_emit _ _) ho8))))))))
            | none =>
              simp only at h
              cases h
              refine ⟨by simp [emit, pop, createLabel, hv5, hv1],
                by simp [emit, pop, createLabel, hs5, hs1],
                by simp [emit, pop, createLabel, hz5]; omega, ?_⟩
              exact outExt_trans (outExt_emit _ _)
                (outExt_trans (exprFrame_out (genExpr_frame h1))
                  (outExt_trans (outExt_pop _ _)
                    (outExt_trans (outExt_createLabel _)
                      (outExt_trans (outExt_emit _ _)
                        (outExt_trans (outExt_emit _ _)
                          (outExt_trans ho5 (outExt_emit _ _)))))))
      | .else_ sc =>
        simp only [genIfPred] at h
        obtain ⟨hv, hs, hz, ho⟩ := ihsc sc _ st' h
        simp only [emit] at hv hs hz
        exact ⟨by simp [hv], by simp [hs], by simp [hz], outExt_trans (outExt_emit _ _) ho⟩

/-- A resolved jump target is the position of the label's definition. -/
theorem findLabel_spec : ∀ (instrs : List Instr) (l : String) (t : Nat),
    findLabel instrs l = some t → instrs[t]? = some (.labelDef l) := by
  intro instrs
  induction instrs with
  | nil => intro l t h; simp [findLabel] at h
  | cons i rest ih =>
    intro l t h
    simp only [findLabel] at h
    split at h
    · rename_i hi
      cases h
      simpa using hi
    · cases hr : findLabel rest l with
      | none => rw [hr] at h; simp at h
      | some t' =>
        rw [hr] at h
        simp only [Option.map_some', Option.some.injEq] at h
        subst h
        simpa using ih l t' hr

/-- A halting step reports the current program counter and the low byte
of `rdi`. -/
theorem step_halted_eq {instrs : List Instr} {st : MState} {s p : Nat}
    (h : step instrs st = .halted s p) : p = st.pc ∧ s = st.rdi % 256 := by
  unfold step at h
  split at h
  · exact absurd h (by simp)
  · split at h
    · exact absurd h (by simp)
    · exact absurd h (by simp)
    · exact absurd h (by simp)
    · exact absurd h (by simp)
    · exact absurd h (by simp)
    · exact absurd h (by simp)
    · split at h
      · exact absurd h (by simp)
      · exact absurd h (by simp)
    · exact absurd h (by simp)
    · exact absurd h (by simp)
    · exact absurd h (by simp)
    · split at h
      · exact absurd h (by simp)
      · exact absurd h (by simp)
    · exact absurd h (by simp)
    · split at h
      · split at h
        · exact absurd h (by simp)
        · exact absurd h (by simp)
      · exact absurd h (by simp)
    · split at h
      · exact absurd h (by simp)
      · exact absurd h (by simp)
    · exact absurd h (by simp)
    · exact absurd h (by simp)
    · split at h
      · obtain ⟨hs, hp⟩ := StepRes.halted.inj h
        exact ⟨hp.symm, hs.symm⟩
      · exact absurd h (by simp)

/-- If the last instruction is the only place the executed `syscall` can
be (`pc = length - 1`) and the instruction before it is `mov rdi, 0`,
then any step arriving at the last position leaves `rdi = 0`: a jump
cannot land there (the last instruction is not a label definition) and
the only fall-through into it executes the `mov`. -/
theorem step_next_inv {instrs : List Instr} {st st1 : MState}
    (h1 : instrs[instrs.length - 1]? = some .syscall)
    (h2 : instrs[instrs.length - 2]? = some (.movRdiImm "0"))
    (hs : step instrs st = .next st1) :
    st1.pc = instrs.length - 1 → st1.rdi % 256 = 0 := by
  intro hpc
  unfold step at hs
  split at hs
  · exact absurd hs (by simp)
  · rename_i i hfetch
    have hlt : st.pc < instrs.length := (List.getElem?_eq_some.1 hfetch).1
    split at hs
    · cases (StepRes.next.inj hs)
      have hpc2 : st.pc + 1 = instrs.length - 1 := hpc
      have hp : st.pc = instrs.length - 2 := by omega
      rw [hp, h2] at hfetch
      exact absurd (Option.some.inj hfetch) (by simp)
    · cases (StepRes.next.inj hs)
      have hpc2 : st.pc + 1 = instrs.length - 1 := hpc
      have hp : st.pc = instrs.length - 2 := by omega
      rw [hp, h2] at hfetch
      exact absurd (Option.some.inj hfetch) (by simp)
    · cases (StepRes.next.inj hs)
      have hpc2 : st.pc + 1 = instrs.length - 1 := hpc
      have hp : st.pc = instrs.length - 2 := by omega
      rw [hp, h2] at hfetch
      exact absurd (Option.some.inj hfetch) (by simp)
    · cases (StepRes.next.inj hs)
      have hpc2 : st.pc + 1 = instrs.length - 1 := hpc
      have hp : st.pc = instrs.length - 2 := by omega
      rw [hp, h2] at hfetch
      exact absurd (Option.some.inj hfetch) (by simp)
    · rename_i v
      cases (StepRes.next.inj hs)
      have hpc2 : st.pc + 1 = instrs.length - 1 := hpc
      have hp : st.pc = instrs.length - 2 := by omega
      rw [hp, h2] at hfetch
      have hv : "0" = v := Instr.movRdiImm.inj (Option.some.inj hfetch)
      cases hv
      exact rfl
    · cases (StepRes.next.inj hs)
      have hpc2 : st.pc + 1 = instrs.length - 1 := hpc
      have hp : st.pc = instrs.length - 2 := by omega
      rw [hp, h2] at hfetch
      exact absurd (Option.some.inj hfetch) (by simp)
    · split at hs
      · exact absurd hs (by simp)
      · cases (StepRes.next.inj hs)
        have hpc2 : st.pc + 1 = instrs.length - 1 := hpc
        have hp : st.pc = instrs.length - 2 := by omega
        rw [hp, h2] at hfetch
        exact absurd (Option.some.inj hfetch) (by simp)
    · cases (StepRes.next.inj hs)
      have hpc2 : st.pc + 1 = instrs.length - 1 := hpc
      have hp : st.pc = instrs.length - 2 := by omega
      rw [hp, h2] at hfetch
      exact absurd (Option.some.inj hfetch) (by simp)
    · cases (StepRes.next.inj hs)
      have hpc2 : st.pc + 1 = instrs.length - 1 := hpc
      have hp : st.pc = instrs.length - 2 := by omega
      rw [hp, h2] at hfetch
      exact absurd (Option.some.inj hfetch) (by simp)
    · cases (StepRes.next.inj hs)
      have hpc2 : st.pc + 1 = instrs.length - 1 := hpc
      have hp : st.pc = instrs.length - 2 := by omega
      rw [hp, h2] at hfetch
      exact absurd (Option.some.inj hfetch) (by simp)
    · split at hs
      · exact absurd hs (by simp)
      · cases (StepRes.next.inj hs)
        have hpc2 : st.pc + 1 = instrs.length - 1 := hpc
        have hp : st.pc = instrs.length - 2 := by omega
        rw [hp, h2] at hfetch
        exact absurd (Option.some.inj hfetch) (by simp)
    · cases (StepRes.next.inj hs)
      have hpc2 : st.pc + 1 = instrs.length - 1 := hpc
      have hp : st.pc = instrs.length - 2 := by omega
      rw [hp, h2] at hfetch
      exact absurd (Option.some.inj hfetch) (by simp)
    · rename_i l
      split at hs
      · cases hfl : findLabel instrs l with
        | none => rw [hfl] at hs; exact absurd hs (by simp)
        | some t =>
          rw [hfl] at hs
          cases (StepRes.next.inj hs)
          have hpc2 : t = instrs.length - 1 := hpc
          have hsp := findLabel_spec instrs l t hfl
          rw [hpc2, h1] at hsp
          exact absurd (Option.some.inj hsp) (by simp)
      · cases (StepRes.next.inj hs)
        have hpc2 : st.pc + 1 = instrs.length - 1 := hpc
        have hp : st.pc = instrs.length - 2 := by omega
        rw [hp, h2] at hfetch
        exact absurd (Option.some.inj hfetch) (by simp)
    · rename_i l
      cases hfl : findLabel instrs l with
      | none => rw [hfl] at hs; exact absurd hs (by simp)
      | some t =>
        rw [hfl] at hs
        cases (StepRes.next.inj hs)
        have hpc2 : t = instrs.length - 1 := hpc
        have hsp := findLabel_spec instrs l t hfl
        rw [hpc2, h1] at hsp
        exact absurd (Option.some.inj hsp) (by simp)
    · cases (StepRes.next.inj hs)
      have hpc2 : st.pc + 1 = instrs.length - 1 := hpc
      have hp : st.pc = instrs.length - 2 := by omega
      rw [hp, h2] at hfetch
      exact absurd (Option.some.inj hfetch) (by simp)
    · cases (StepRes.next.inj hs)
      have hpc2 : st.pc + 1 = instrs.length - 1 := hpc
      have hp : st.pc = instrs.length - 2 := by omega
      rw [hp, h2] at hfetch
      exact absurd (Option.some.inj hfetch) (by simp)
    · split at hs
      · exact absurd hs (by simp)
      · exact absurd hs (by simp)

/-- Any terminating run whose halting `syscall` is the LAST instruction
of a program ending in `mov rdi, 0; syscall` exits with status 0. -/
theorem run_last_zero {instrs : List Instr}
    (h1 : instrs[instrs.length - 1]? = some .syscall)
    (h2 : instrs[instrs.length - 2]? = some (.movRdiImm "0")) :
    ∀ fuel (st : MState), (st.pc = instrs.length - 1 → st.rdi % 256 = 0) →
      ∀ status pc, run instrs fuel st = some (status, pc) →
        pc = instrs.length - 1 → status = 0 := by
  intro fuel
  induction fuel with
  | zero => intro st hinv status pc h hpc; simp [run] at h
  | succ fuel ih =>
    intro st hinv status pc h hpc
    simp only [run] at h
    split at h
    · rename_i s p hs
      simp only [Option.some.injEq, Prod.mk.injEq] at h
      obtain ⟨rfl, rfl⟩ := h
      obtain ⟨hp, hi⟩ := step_halted_eq hs
      rw [hi]
      rw [hp] at hpc
      exact hinv hpc
    · rename_i st1 hs
      exact ih st1 (step_next_inv h1 h2 hs) status pc h hpc
    · simp at h

end Hydro

namespace Hydro

-- Claim theorems.

/-- Tokens of `let x = 1; { let x = 2; exit(x); }`. -/
def c1aTokens : List Token :=
  [⟨.let_, 1, none⟩, ⟨.ident, 1, some "x"⟩, ⟨.eq, 1, none⟩,
   ⟨.int_lit, 1, some "1"⟩, ⟨.semi, 1, none⟩, ⟨.open_curly, 1, none⟩,
   ⟨.let_, 1, none⟩, ⟨.ident, 1, some "x"⟩, ⟨.eq, 1, none⟩,
   ⟨.int_lit, 1, some "2"⟩, ⟨.semi, 1, none⟩, ⟨.exit, 1, none⟩,
   ⟨.open_paren, 1, none⟩, ⟨.ident, 1, some "x"⟩, ⟨.close_paren, 1, none⟩,
   ⟨.semi, 1, none⟩, ⟨.close_curly, 1, none⟩]

/-- Parse tree of `let x = 1; { let x = 2; exit(x); }`. -/
def c1aAst : NodeProg :=
  ⟨[.letStmt ⟨.ident, 1, some "x"⟩ (.term (.intLit ⟨.int_lit, 1, some "1"⟩)),
    .scope (.mk [.letStmt ⟨.ident, 1, some "x"⟩ (.term (.intLit ⟨.int_lit, 1, some "2"⟩)),
      .exit (.term (.ident ⟨.ident, 1, some "x"⟩))])]⟩

set_option maxRecDepth 8000 in
/-- C1 counterexample: the program `let x = 1; { let x = 2; exit(x); }`
does NOT compile — it tokenizes and parses, but the duplicate-`let`
check searches the whole variable table, so the inner `let x` in the
nested scope is rejected as "Identifier already used" even though it
only shadows the outer binding. -/
theorem c1_counterexample :
    tokenize "let x = 1; \x7b let x = 2; exit(x); \x7d" = .ok c1aTokens ∧
    parseProg defFuel c1aTokens = .ok c1aAst ∧
    genProg defFuel c1aAst = .error (.identifierAlreadyUsed "x") := ⟨rfl, rfl, rfl⟩

/-- Tokens of `let x = 1; let x = 2;`. -/
def c1bTokens : List Token :=
  [⟨.let_, 1, none⟩, ⟨.ident, 1, some "x"⟩, ⟨.eq, 1, none⟩,
   ⟨.int_lit, 1, some "1"⟩, ⟨.semi, 1, none⟩, ⟨.let_, 1, none⟩,
   ⟨.ident, 1, some "x"⟩, ⟨.eq, 1, none⟩, ⟨.int_lit, 1, some "2"⟩,
   ⟨.semi, 1, none⟩]

/-- Parse tree of `let x = 1; let x = 2;`. -/
def c1bAst : NodeProg :=
  ⟨[.letStmt ⟨.ident, 1, some "x"⟩ (.term (.intLit ⟨.int_lit, 1, some "1"⟩)),
    .letStmt ⟨.ident, 1, some "x"⟩ (.term (.intLit ⟨.int_lit, 1, some "2"⟩))]⟩

set_option maxRecDepth 8000 in
/-- C1 (amended): a `let` whose name is already bound ANYWHERE in the
visible variable table — the same open scope or any enclosing one — is
a fatal "Identifier already used" error; in particular the nested
shadowing program `let x = 1; { let x = 2; exit(x); }` is rejected,
exactly as the same-scope duplicate `let x = 1; let x = 2;` is. -/
theorem c1_amended :
    (∀ fuel identTok e (st : GenState),
        (lookupVar (identTok.value.getD "") st.vars).isSome = true →
        genStmt (fuel + 1) (.letStmt identTok e) st =
          .error (.identifierAlreadyUsed (identTok.value.getD ""))) ∧
    genProg defFuel c1aAst = .error (.identifierAlreadyUsed "x") ∧
    tokenize "let x = 1; let x = 2;" = .ok c1bTokens ∧
    parseProg defFuel c1bTokens = .ok c1bAst ∧
    genProg defFuel c1bAst = .error (.identifierAlreadyUsed "x") := by
  refine ⟨?_, rfl, rfl, rfl, rfl⟩
  intro fuel identTok e st hsome
  simp only [genStmt, emit]
  cases hl : lookupVar (identTok.value.getD "") st.vars with
  | none => rw [hl] at hsome; simp at hsome
  | some v => rfl

/-- C1 witness: the amended duplicate rule applied at a concrete state
whose table already binds `x`. -/
theorem c1_witness :
    (lookupVar "x" [⟨"x", 0⟩]).isSome = true ∧
    genStmt 1 (.letStmt ⟨.ident, 1, some "x"⟩ (.term (.intLit ⟨.int_lit, 1, some "1"⟩)))
        ⟨[], 1, [⟨"x", 0⟩], [], 0⟩ = .error (.identifierAlreadyUsed "x") :=
  ⟨by decide,
   c1_amended.1 0 ⟨.ident, 1, some "x"⟩ (.term (.intLit ⟨.int_lit, 1, some "1"⟩))
     ⟨[], 1, [⟨"x", 0⟩], [], 0⟩ (by decide)⟩

/-- Tokens of `if (1) { } elif (1) { }`. -/
def c2Tokens : List Token :=
  [⟨.if_, 1, none⟩, ⟨.open_paren, 1, none⟩, ⟨.int_lit, 1, some "1"⟩,
   ⟨.close_paren, 1, none⟩, ⟨.open_curly, 1, none⟩, ⟨.close_curly, 1, none⟩,
   ⟨.elif_, 1, none⟩, ⟨.open_paren, 1, none⟩, ⟨.int_lit, 1, some "1"⟩,
   ⟨.close_paren, 1, none⟩, ⟨.open_curly, 1, none⟩, ⟨.close_curly, 1, none⟩]

/-- Parse tree of `if (1) { } elif (1) { }`: an `if` whose `elif`
predicate has no further predicate tail. -/
def c2Ast : NodeProg :=
  ⟨[.if_ (.term (.intLit ⟨.int_lit, 1, some "1"⟩)) (.mk [])
     (some (.elif_ (.term (.intLit ⟨.int_lit, 1, some "1"⟩)) (.mk []) none))]⟩

/-- The assembly generated for `if (1) { } elif (1) { }` (the theorem
below checks this list against the generator). -/
def c2Output : List Instr :=
  [.globalStart, .labelDef "_start", .comment ";; if", .movRaxImm "1",
   .push (.reg .rax), .pop .rax, .testRaxRax, .jz "label0", .jmp "label1",
   .labelDef "label0", .comment ";; elif", .movRaxImm "1", .push (.reg .rax),
   .pop .rax, .testRaxRax, .jz "label2", .jmp "label1", .labelDef "label1",
   .comment ";; /if", .movRaxImm "60", .movRdiImm "0", .syscall]

set_option maxRecDepth 8000 in
/-- C2: in the assembly generated for `if (1) { } elif (1) { }`, the
trailing `elif`'s conditional jump targets `label2`, but `label2:` is
never emitted (the source emits the false-branch label only when a
further predicate exists) — while the shared end label `label1` is both
targeted and emitted, as is the `if`'s own false label `label0`.  The
claim that every jump target is also defined is false for this program. -/
theorem c2_dangling_elif_label :
    tokenize "if (1) \x7b \x7d elif (1) \x7b \x7d" = .ok c2Tokens ∧
    parseProg defFuel c2Tokens = .ok c2Ast ∧
    genProg defFuel c2Ast = .ok c2Output ∧
    Instr.jz "label2" ∈ c2Output ∧ Instr.labelDef "label2" ∉ c2Output ∧
    Instr.jmp "label1" ∈ c2Output ∧ Instr.labelDef "label1" ∈ c2Output ∧
    Instr.jz "label0" ∈ c2Output ∧ Instr.labelDef "label0" ∈ c2Output :=
  ⟨rfl, rfl, rfl, by decide, by decide, by decide, by decide, by decide, by decide⟩

/-- C3: the parser crashes WITHOUT a diagnostic on an unterminated
scope — the lone token `{` reaches `parse_stmt`'s first branch, whose
`peek().value()` dereferences an empty optional (modelled as
`badOptionalAccess`) instead of reaching `error_expected`; whereas the
unmatched parenthesis `exit(1+2;` does produce the documented
diagnostic (expected `)` on line 1). -/
theorem c3_unterminated_scope_crash :
    compile "\x7b" = .error (.parse .badOptionalAccess) ∧
    compile "exit(1+2;" = .error (.parse (.expected "`)`" 1)) := ⟨rfl, rfl⟩

/-- C4: after a `//` comment the line counter advances TWICE per source
newline — once in the comment branch (which leaves the newline in the
input) and once in the newline branch — so `exit` on line 2 of
`//c\nexit` is tokenized with line number 3, not 2; without a comment
(`x\nexit`) the counter advances once as the claim describes. -/
theorem c4_line_comment_double_count :
    tokenize "//c\nexit" = .ok [⟨.exit, 3, none⟩] ∧
    tokenize "x\nexit" = .ok [⟨.ident, 1, some "x"⟩, ⟨.exit, 2, none⟩] := ⟨rfl, rfl⟩

/-- The assembly generated for `exit(1+2*3);`. -/
def c6Instrs : List Instr :=
  [.globalStart, .labelDef "_start", .comment ";; exit", .movRaxImm "3",
   .push (.reg .rax), .movRaxImm "2", .push (.reg .rax), .pop .rax, .pop .rbx,
   .mulRbx, .push (.reg .rax), .movRaxImm "1", .push (.reg .rax), .pop .rax,
   .pop .rbx, .addRaxRbx, .push (.reg .rax), .movRaxImm "60", .pop .rdi,
   .syscall, .comment ";; /exit", .movRaxImm "60", .movRdiImm "0", .syscall]

/-- Tokens of `exit(1+2*3);`. -/
def c6Tokens : List Token :=
  [⟨.exit, 1, none⟩, ⟨.open_paren, 1, none⟩, ⟨.int_lit, 1, some "1"⟩,
   ⟨.plus, 1, none⟩, ⟨.int_lit, 1, some "2"⟩, ⟨.star, 1, none⟩,
   ⟨.int_lit, 1, some "3"⟩, ⟨.close_paren, 1, none⟩, ⟨.semi, 1, none⟩]

/-- Parse tree of `exit(1+2*3);`: the expression is `1+(2*3)`. -/
def c6Ast : NodeProg :=
  ⟨[.exit (.binExpr (.add (.term (.intLit ⟨.int_lit, 1, some "1"⟩))
     (.binExpr (.multi (.term (.intLit ⟨.int_lit, 1, some "2"⟩))
       (.term (.intLit ⟨.int_lit, 1, some "3"⟩))))))]⟩

set_option maxRecDepth 8000 in
/-- C6: precedence climbing parses `1+2*3` as `1+(2*3)` (multiply binds
tighter), and simulating the assembly compiled from `exit(1+2*3);`
terminates the process with exit status 7, not 9. -/
theorem c6_precedence :
    parseExpr defFuel 0 ⟨c6Tokens.drop 2 ++ [⟨.semi, 1, none⟩], 0⟩ =
      .ok (some (.binExpr (.add (.term (.intLit ⟨.int_lit, 1, some "1"⟩))
          (.binExpr (.multi (.term (.intLit ⟨.int_lit, 1, some "2"⟩))
            (.term (.intLit ⟨.int_lit, 1, some "3"⟩)))))),
        ⟨c6Tokens.drop 2 ++ [⟨.semi, 1, none⟩], 5⟩) ∧
    tokenize "exit(1+2*3);" = .ok c6Tokens ∧
    parseProg defFuel c6Tokens = .ok c6Ast ∧
    genProg defFuel c6Ast = .ok c6Instrs ∧
    (run c6Instrs 60 initM).map (fun r => r.1) = some 7 ∧ (7 : Nat) ≠ 9 :=
  ⟨rfl, rfl, rfl, rfl, rfl, by decide⟩

/-- The assembly generated for `if (0) { exit(1); } else { exit(2); }`. -/
def c7aInstrs : List Instr :=
  [.globalStart, .labelDef "_start", .comment ";; if", .movRaxImm "0",
   .push (.reg .rax), .pop .rax, .testRaxRax, .jz "label0", .comment ";; exit",
   .movRaxImm "1", .push (.reg .rax), .movRaxImm "60", .pop .rdi, .syscall,
   .comment ";; /exit", .jmp "label1", .labelDef "label0", .comment ";; else",
   .comment ";; exit", .movRaxImm "2", .push (.reg .rax), .movRaxImm "60",
   .pop .rdi, .syscall, .comment ";; /exit", .labelDef "label1",
   .comment ";; /if", .movRaxImm "60", .movRdiImm "0", .syscall]

/-- The assembly generated for
`if (1) { exit(1); } elif (1) { exit(2); } else { exit(3); }`. -/
def c7bInstrs : List Instr :=
  [.globalStart, .labelDef "_start", .comment ";; if", .movRaxImm "1",
   .push (.reg .rax), .pop .rax, .testRaxRax, .jz "label0", .comment ";; exit",
   .movRaxImm "1", .push (.reg .rax), .movRaxImm "60", .pop .rdi, .syscall,
   .comment ";; /exit", .jmp "label1", .labelDef "label0", .comment ";; elif",
   .movRaxImm "1", .push (.reg .rax), .pop .rax, .testRaxRax, .jz "label2",
   .comment ";; exit", .movRaxImm "2", .push (.reg .rax), .movRaxImm "60",
   .pop .rdi, .syscall, .comment ";; /exit", .jmp "label1", .labelDef "label2",
   .comment ";; else", .comment ";; exit", .movRaxImm "3", .push (.reg .rax),
   .movRaxImm "60", .pop .rdi, .syscall, .comment ";; /exit", .labelDef "label1",
   .comment ";; /if", .movRaxImm "60", .movRdiImm "0", .syscall]

/-- Tokens of `if (0) { exit(1); } else { exit(2); }`. -/
def c7aTokens : List Token :=
  [⟨.if_, 1, none⟩, ⟨.open_paren, 1, none⟩, ⟨.int_lit, 1, some "0"⟩,
   ⟨.close_paren, 1, none⟩, ⟨.open_curly, 1, none⟩, ⟨.exit, 1, none⟩,
   ⟨.open_paren, 1, none⟩, ⟨.int_lit, 1, some "1"⟩, ⟨.close_paren, 1, none⟩,
   ⟨.semi, 1, none⟩, ⟨.close_curly, 1, none⟩, ⟨.else_, 1, none⟩,
   ⟨.open_curly, 1, none⟩, ⟨.exit, 1, none⟩, ⟨.open_paren, 1, none⟩,
   ⟨.int_lit, 1, some "2"⟩, ⟨.close_paren, 1, none⟩, ⟨.semi, 1, none⟩,
   ⟨.close_curly, 1, none⟩]

/-- Parse tree of `if (0) { exit(1); } else { exit(2); }`. -/
def c7aAst : NodeProg :=
  ⟨[.if_ (.term (.intLit ⟨.int_lit, 1, some "0"⟩))
     (.mk [.exit (.term (.intLit ⟨.int_lit, 1, some "1"⟩))])
     (some (.else_ (.mk [.exit (.term (.intLit ⟨.int_lit, 1, some "2"⟩))])))]⟩

/-- Tokens of `if (1) { exit(1); } elif (1) { exit(2); } else { exit(3); }`. -/
def c7bTokens : List Token :=
  [⟨.if_, 1, none⟩, ⟨.open_paren, 1, none⟩, ⟨.int_lit, 1, some "1"⟩,
   ⟨.close_paren, 1, none⟩, ⟨.open_curly, 1, none⟩, ⟨.exit, 1, none⟩,
   ⟨.open_paren, 1, none⟩, ⟨.int_lit, 1, some "1"⟩, ⟨.close_paren, 1, none⟩,
   ⟨.semi, 1, none⟩, ⟨.close_curly, 1, none⟩, ⟨.elif_, 1, none⟩,
   ⟨.open_paren, 1, none⟩, ⟨.int_lit, 1, some "1"⟩, ⟨.close_paren, 1, none⟩,
   ⟨.open_curly, 1, none⟩, ⟨.exit, 1, none⟩, ⟨.open_paren, 1, none⟩,
   ⟨.int_lit, 1, some "2"⟩, ⟨.close_paren, 1, none⟩, ⟨.semi, 1, none⟩,
   ⟨.close_curly, 1, none⟩, ⟨.else_, 1, none⟩, ⟨.open_curly, 1, none⟩,
   ⟨.exit, 1, none⟩, ⟨.open_paren, 1, none⟩, ⟨.int_lit, 1, some "3"⟩,
   ⟨.close_paren, 1, none⟩, ⟨.semi, 1, none⟩, ⟨.close_curly, 1, none⟩]

/-- Parse tree of `if (1) { exit(1); } elif (1) { exit(2); } else { exit(3); }`. -/
def c7bAst : NodeProg :=
  ⟨[.if_ (.term (.intLit ⟨.int_lit, 1, some "1"⟩))
     (.mk [.exit (.term (.intLit ⟨.int_lit, 1, some "1"⟩))])
     (some (.elif_ (.term (.intLit ⟨.int_lit, 1, some "1"⟩))
       (.mk [.exit (.term (.intLit ⟨.int_lit, 1, some "2"⟩))])
       (some (.else_ (.mk [.exit (.term (.intLit ⟨.int_lit, 1, some "3"⟩))])))))]⟩

set_option maxRecDepth 8000 in
/-- C7: simulating the assembly compiled from
`if (0) { exit(1); } else { exit(2); }` exits with status 2, and from
`if (1) { exit(1); } elif (1) { exit(2); } else { exit(3); }` with
status 1 (one branch of the chain runs, zero takes the false path). -/
theorem c7_branching :
    tokenize "if (0) \x7b exit(1); \x7d else \x7b exit(2); \x7d" = .ok c7aTokens ∧
    parseProg defFuel c7aTokens = .ok c7aAst ∧
    genProg defFuel c7aAst = .ok c7aInstrs ∧
    (run c7aInstrs 60 initM).map (fun r => r.1) = some 2 ∧
    tokenize "if (1) \x7b exit(1); \x7d elif (1) \x7b exit(2); \x7d else \x7b exit(3); \x7d"
      = .ok c7bTokens ∧
    parseProg defFuel c7bTokens = .ok c7bAst ∧
    genProg defFuel c7bAst = .ok c7bInstrs ∧
    (run c7bInstrs 60 initM).map (fun r => r.1) = some 1 :=
  ⟨rfl, rfl, rfl, rfl, rfl, rfl, rfl, rfl⟩

end Hydro

namespace Hydro

/-- When no two table entries share a name, the forward `find_if`
search of the source and the spec's backward (most-recent-first) search
return the same binding. -/
theorem lookupVar_eq_lookupNearest (name : String) :
    ∀ vars, namesNodup vars → lookupVar name vars = lookupNearest name vars := by
  intro vars
  induction vars with
  | nil => intro _; rfl
  | cons v rest ih =>
    intro hnd
    rw [namesNodup, List.map_cons, List.nodup_cons] at hnd
    obtain ⟨hnotin, hndrest⟩ := hnd
    by_cases hv : v.name = name
    · have hrest : rest.find? (fun w => w.name == name) = none := by
        rw [List.find?_eq_none]
        intro w hw hbeq
        apply hnotin
        rw [hv]
        have hwn : w.name = name := by simpa using hbeq
        rw [← hwn]
        exact List.mem_map_of_mem _ hw
      have hrev : rest.reverse.find? (fun w => w.name == name) = none := by
        rw [List.find?_eq_none] at hrest ⊢
        intro w hw
        exact hrest w (List.mem_reverse.1 hw)
      rw [lookupVar, lookupNearest, List.reverse_cons, List.find?_append, hrev,
        List.find?_cons_of_pos _ (by simp [hv])]
      rw [List.find?_cons_of_pos _ (by simp [hv])]
      rfl
    · rw [lookupVar, List.find?_cons_of_neg _ (by simp [hv]), lookupNearest,
        List.reverse_cons, List.find?_append]
      have hone : [v].find? (fun w => w.name == name) = none := by
        rw [List.find?_cons_of_neg _ (by simp [hv])]
        rfl
      rw [hone, Option.or_none]
      exact ih hndrest

/-- C5 counterexample: on a table holding two bindings of `x` (the
older at stack slot 0, the newer at slot 1), the source's lookup — a
forward `find_if` from the OLDEST binding — returns the older binding,
and reading `x` duplicates the older slot (`[rsp + 8]`), not the
nearest one (`[rsp + 0]`), contradicting the claimed
most-recently-declared-backward search. -/
theorem c5_counterexample :
    lookupVar "x" [⟨"x", 0⟩, ⟨"x", 1⟩] = some ⟨"x", 0⟩ ∧
    lookupNearest "x" [⟨"x", 0⟩, ⟨"x", 1⟩] = some ⟨"x", 1⟩ ∧
    Var.mk "x" 0 ≠ Var.mk "x" 1 ∧
    genTerm 1 (.ident ⟨.ident, 1, some "x"⟩) ⟨[], 2, [⟨"x", 0⟩, ⟨"x", 1⟩], [], 0⟩ =
      .ok ⟨[.push (.memRsp 8)], 3, [⟨"x", 0⟩, ⟨"x", 1⟩], [], 0⟩ ∧
    (8 : Nat) ≠ 0 := ⟨rfl, rfl, by decide, rfl, by decide⟩

/-- C5 (amended): identifier resolution searches the table linearly
from the FIRST (least recently) declared binding forward; since a `let`
whose name already occurs anywhere in the table is a fatal error, the
table never holds two bindings of one name, so the forward search finds
the unique visible binding — coinciding with the spec's backward search
on every duplicate-free table; an unresolved name (read or
reassignment) is a fatal undeclared-identifier error, and generation
preserves duplicate-freedom of the table. -/
theorem c5_amended :
    (∀ name vars, namesNodup vars → lookupVar name vars = lookupNearest name vars) ∧
    (∀ fuel tok (st : GenState), lookupVar (tok.value.getD "") st.vars = none →
        genTerm (fuel + 1) (.ident tok) st =
          .error (.undeclaredIdentifier (tok.value.getD ""))) ∧
    (∀ fuel tok e (st : GenState), lookupVar (tok.value.getD "") st.vars = none →
        genStmt (fuel + 1) (.assign tok e) st =
          .error (.undeclaredIdentifier (tok.value.getD ""))) ∧
    (∀ fuel s st st', genStmt fuel s st = .ok st' →
        namesNodup st.vars → namesNodup st'.vars) := by
  refine ⟨fun name => lookupVar_eq_lookupNearest name, ?_, ?_, ?_⟩
  · intro fuel tok st h
    simp only [genTerm]
    rw [h]
  · intro fuel tok e st h
    simp only [genStmt, emit]
    rw [h]
  · intro fuel s st st' h
    obtain ⟨new, -, -, -, -, hn, -⟩ := (stmtFrameAux fuel).1 s st st' h
    exact hn

/-- C5 witness: the amended resolution rules at concrete inputs — a
duplicate-free table where both search orders agree, a read and a
reassignment of an undeclared `y` that fail fatally, and a concrete
statement generation that preserves duplicate-freedom. -/
theorem c5_witness :
    (lookupVar "y" [⟨"x", 0⟩] = lookupNearest "y" [⟨"x", 0⟩]) ∧
    (genTerm 1 (.ident ⟨.ident, 1, some "y"⟩) ⟨[], 1, [⟨"x", 0⟩], [], 0⟩ =
      .error (.undeclaredIdentifier "y")) ∧
    (genStmt 1 (.assign ⟨.ident, 1, some "y"⟩ (.term (.intLit ⟨.int_lit, 1, some "2"⟩)))
        ⟨[], 1, [⟨"x", 0⟩], [], 0⟩ = .error (.undeclaredIdentifier "y")) ∧
    namesNodup [] :=
  ⟨c5_amended.1 "y" [⟨"x", 0⟩] (by decide),
   c5_amended.2.1 0 ⟨.ident, 1, some "y"⟩ ⟨[], 1, [⟨"x", 0⟩], [], 0⟩ (by decide),
   c5_amended.2.2.1 0 ⟨.ident, 1, some "y"⟩ (.term (.intLit ⟨.int_lit, 1, some "2"⟩))
     ⟨[], 1, [⟨"x", 0⟩], [], 0⟩ (by decide),
   c5_amended.2.2.2 3 (.exit (.term (.intLit ⟨.int_lit, 1, some "0"⟩))) initGen
     ⟨[.comment ";; exit", .movRaxImm "0", .push (.reg .rax), .movRaxImm "60",
       .pop .rdi, .syscall, .comment ";; /exit"], 0, [], [], 0⟩ (by rfl) (by decide)⟩

end Hydro

namespace Hydro

/-- C8: every generated scope restores the generator state — the
variable table comes back EXACTLY to its entry value (so exactly the
variables declared since the checkpoint were removed), the checkpoint
stack and the virtual stack height return to their entry values; a
scope exit that has zero variables to discard emits no `add rsp`
instruction; and the empty scope `{ }` changes nothing at all. -/
theorem c8_scope_restoration :
    (∀ fuel sc st st', genScope fuel sc st = .ok st' →
        st'.vars = st.vars ∧ st'.scopes = st.scopes ∧ st'.stackSize = st.stackSize) ∧
    (∀ st : GenState, st.vars.length = st.scopes.getLast?.getD 0 →
        (endScope st).output = st.output) ∧
    (∀ fuel st, genScope (fuel + 2) (.mk []) st = .ok st) := by
  refine ⟨?_, ?_, ?_⟩
  · intro fuel sc st st' h
    obtain ⟨hv, hs, hz, -⟩ := (stmtFrameAux fuel).2.2.1 sc st st' h
    exact ⟨hv, hs, hz⟩
  · intro st h
    simp [endScope, ← h]
  · intro fuel st
    show Except.ok (endScope (beginScope st)) = .ok st
    cases st with
    | mk out sz vars scopes lc =>
      simp [endScope, beginScope, List.getLast?_concat, List.dropLast_concat,
        List.take_length]

/-- C8 witness: the restoration applied to the empty scope at the
initial generator state. -/
theorem c8_witness :
    (genScope 2 (NodeScope.mk []) initGen = .ok initGen) ∧
    (initGen.vars = initGen.vars ∧ initGen.scopes = initGen.scopes ∧
      initGen.stackSize = initGen.stackSize) ∧
    ((endScope initGen).output = initGen.output) ∧
    (genScope 5 (NodeScope.mk []) initGen = .ok initGen) :=
  ⟨rfl,
   c8_scope_restoration.1 2 (.mk []) initGen initGen rfl,
   c8_scope_restoration.2.1 initGen rfl,
   c8_scope_restoration.2.2 3 initGen⟩

/-- C10: generating any expression raises the virtual stack height by
exactly one, and the emitted lines contain exactly one more `push` than
`pop` (so the height always equals the running push/pop difference);
consequently `exit`, reassignment and `if`-condition generation each
pop that single result slot, leaving the height as before. -/
theorem c10_expression_stack_discipline :
    (∀ fuel e st st', genExpr fuel e st = .ok st' →
        st'.stackSize = st.stackSize + 1 ∧
        ∃ d, st'.output = st.output ++ d ∧ countPush d = countPop d + 1 ∧
          st'.stackSize + countPop d = st.stackSize + countPush d) ∧
    (∀ fuel e st st', genStmt fuel (.exit e) st = .ok st' →
        st'.stackSize = st.stackSize) ∧
    (∀ fuel tok e st st', genStmt fuel (.assign tok e) st = .ok st' →
        st'.stackSize = st.stackSize) ∧
    (∀ fuel e sc pred st st', genStmt fuel (.if_ e sc pred) st = .ok st' →
        st'.stackSize = st.stackSize) := by
  refine ⟨?_, ?_, ?_, ?_⟩
  · intro fuel e st st' h
    obtain ⟨-, -, -, hz, d, hd, hc, -⟩ := genExpr_frame h
    exact ⟨hz, d, hd, hc, by omega⟩
  · intro fuel e st st' h
    obtain ⟨new, -, -, hz, hlen, -, -⟩ := (stmtFrameAux fuel).1 _ st st' h
    have h0 : new.length = 0 := hlen
    omega
  · intro fuel tok e st st' h
    obtain ⟨new, -, -, hz, hlen, -, -⟩ := (stmtFrameAux fuel).1 _ st st' h
    have h0 : new.length = 0 := hlen
    omega
  · intro fuel e sc pred st st' h
    obtain ⟨new, -, -, hz, hlen, -, -⟩ := (stmtFrameAux fuel).1 _ st st' h
    have h0 : new.length = 0 := hlen
    omega

/-- State after generating the literal `7` from the initial state. -/
def w10a : GenState := ⟨[.movRaxImm "7", .push (.reg .rax)], 1, [], [], 0⟩

/-- State after generating `exit(0);` from the initial state. -/
def w10b : GenState :=
  ⟨[.comment ";; exit", .movRaxImm "0", .push (.reg .rax), .movRaxImm "60",
    .pop .rdi, .syscall, .comment ";; /exit"], 0, [], [], 0⟩

/-- State with one variable `x` on the stack. -/
def w10cSt : GenState := ⟨[], 1, [⟨"x", 0⟩], [], 0⟩

/-- State after generating `x = 2;` from `w10cSt`. -/
def w10c : GenState :=
  ⟨[.comment ";; reassign", .movRaxImm "2", .push (.reg .rax), .pop .rax,
    .movMemRspRax 0, .comment ";; /reassign"], 1, [⟨"x", 0⟩], [], 0⟩

/-- State after generating `if (1) { }` from the initial state. -/
def w10d : GenState :=
  ⟨[.comment ";; if", .movRaxImm "1", .push (.reg .rax), .pop .rax,
    .testRaxRax, .jz "label0", .labelDef "label0", .comment ";; /if"],
   0, [], [], 1⟩

/-- C10 witness: the stack discipline applied to a concrete literal
expression, an `exit`, a reassignment, and an `if` statement. -/
theorem c10_witness :
    (w10a.stackSize = initGen.stackSize + 1 ∧
      ∃ d, w10a.output = initGen.output ++ d ∧ countPush d = countPop d + 1 ∧
        w10a.stackSize + countPop d = initGen.stackSize + countPush d) ∧
    w10b.stackSize = initGen.stackSize ∧
    w10c.stackSize = w10cSt.stackSize ∧
    w10d.stackSize = initGen.stackSize :=
  ⟨c10_expression_stack_discipline.1 2 (.term (.intLit ⟨.int_lit, 1, some "7"⟩))
     initGen w10a (by rfl),
   c10_expression_stack_discipline.2.1 3 (.term (.intLit ⟨.int_lit, 1, some "0"⟩))
     initGen w10b (by rfl),
   c10_expression_stack_discipline.2.2.1 3 ⟨.ident, 1, some "x"⟩
     (.term (.intLit ⟨.int_lit, 1, some "2"⟩)) w10cSt w10c (by rfl),
   c10_expression_stack_discipline.2.2.2 4 (.term (.intLit ⟨.int_lit, 1, some "1"⟩))
     (.mk []) none initGen w10d (by rfl)⟩

/-- C9: program generation emits the fixed prologue, then the
statements' code, then the default termination epilogue; any
terminating simulation whose halting `syscall` is that final epilogue
instruction (that is, no `exit` statement's syscall was reached) exits
with status 0. -/
theorem c9_default_exit_zero :
    ∀ fuel prog out, genProg fuel prog = .ok out →
      (∃ body, out = [.globalStart, .labelDef "_start"] ++ body ++
          [.movRaxImm "60", .movRdiImm "0", .syscall]) ∧
      (∀ rfuel status pc, run out rfuel initM = some (status, pc) →
          pc = out.length - 1 → status = 0) := by
  intro fuel prog out h
  simp only [genProg] at h
  split at h
  · exact absurd h (by simp)
  · rename_i st hst
    cases h
    obtain ⟨new, -, -, -, -, d, hd⟩ := (stmtFrameAux fuel).2.1 prog.stmts _ st hst
    constructor
    · refine ⟨d, ?_⟩
      rw [hd]
    · intro rfuel status pc hr hpc
      refine run_last_zero ?_ ?_ rfuel initM ?_ status pc hr hpc
      · have hix : (st.output ++ [Instr.movRaxImm "60", Instr.movRdiImm "0",
            Instr.syscall]).length - 1 = st.output.length + 2 := by simp
        rw [hix, List.getElem?_append_right (by omega)]
        have h2 : st.output.length + 2 - st.output.length = 2 := by omega
        rw [h2]
        rfl
      · have hix : (st.output ++ [Instr.movRaxImm "60", Instr.movRdiImm "0",
            Instr.syscall]).length - 2 = st.output.length + 1 := by simp
        rw [hix, List.getElem?_append_right (by omega)]
        have h2 : st.output.length + 1 - st.output.length = 1 := by omega
        rw [h2]
        rfl
      · intro habs
        exfalso
        have h0 : (0 : Nat) = (st.output ++ [Instr.movRaxImm "60",
            Instr.movRdiImm "0", Instr.syscall]).length - 1 := habs
        simp only [List.length_append, List.length_cons, List.length_nil] at h0
        omega

/-- Parse tree of `let x = 5;`, a program that reaches no `exit`. -/
def c9Prog : NodeProg :=
  ⟨[.letStmt ⟨.ident, 1, some "x"⟩ (.term (.intLit ⟨.int_lit, 1, some "5"⟩))]⟩

/-- The assembly generated for `let x = 5;`. -/
def c9Out : List Instr :=
  [.globalStart, .labelDef "_start", .comment ";; let", .movRaxImm "5",
   .push (.reg .rax), .comment ";; /let", .movRaxImm "60", .movRdiImm "0",
   .syscall]

/-- C9 witness: the default-exit property applied to `let x = 5;`,
whose simulation runs off the end of the statement code into the
epilogue and exits with status 0. -/
theorem c9_witness :
    genProg 5 c9Prog = .ok c9Out ∧
    ((∃ body, c9Out = [.globalStart, .labelDef "_start"] ++ body ++
        [.movRaxImm "60", .movRdiImm "0", .syscall]) ∧
     (∀ rfuel status pc, run c9Out rfuel initM = some (status, pc) →
        pc = c9Out.length - 1 → status = 0)) ∧
    run c9Out 20 initM = some (0, 8) ∧ c9Out.length - 1 = 8 :=
  ⟨rfl, c9_default_exit_zero 5 c9Prog c9Out rfl, rfl, rfl⟩

end Hydro
